import Mathlib

/-!
Verification development for the koko-pic-api identity & verification subsystem.

The Rust sources under `src/domains/user` (model.rs, repository.rs, service.rs)
and `src/utils.rs`, `src/utils/jwt.rs` are shallowly embedded: the Postgres
tables become lists inside a `DB` structure, `chrono` timestamps become `Int`
seconds, fallible calls become `Except`, and the service operations become pure
functions threading the `DB` state explicitly.  Randomness (UUID token strings)
and the SMTP outcome are passed in as oracle arguments.
-/

namespace Koko

/-! ## SHA-256 (embedding of `utils.rs::hash_password`, which uses the `sha2` crate)

`hash_password` computes the lowercase hex digest of SHA-256 of the UTF-8 bytes
of the password.  SHA-256 is implemented here directly (FIPS 180-4) over `Nat`
with explicit reduction modulo 2^32. -/

def w32 (x : Nat) : Nat := x % 4294967296

def rotr (n x : Nat) : Nat := w32 ((x >>> n) ||| (x <<< (32 - n)))

def shaNot (x : Nat) : Nat := x ^^^ 4294967295

def bigSigma0 (x : Nat) : Nat := (rotr 2 x) ^^^ (rotr 13 x) ^^^ (rotr 22 x)

def bigSigma1 (x : Nat) : Nat := (rotr 6 x) ^^^ (rotr 11 x) ^^^ (rotr 25 x)

def smallSigma0 (x : Nat) : Nat := (rotr 7 x) ^^^ (rotr 18 x) ^^^ (x >>> 3)

def smallSigma1 (x : Nat) : Nat := (rotr 17 x) ^^^ (rotr 19 x) ^^^ (x >>> 10)

def chFn (x y z : Nat) : Nat := (x &&& y) ^^^ ((shaNot x) &&& z)

def majFn (x y z : Nat) : Nat := (x &&& y) ^^^ (x &&& z) ^^^ (y &&& z)

def shaK : List Nat :=
  [1116352408, 1899447441, 3049323471, 3921009573, 961987163, 1508970993,
   2453635748, 2870763221, 3624381080, 310598401, 607225278, 1426881987,
   1925078388, 2162078206, 2614888103, 3248222580, 3835390401, 4022224774,
   264347078, 604807628, 770255983, 1249150122, 1555081692, 1996064986,
   2554220882, 2821834349, 2952996808, 3210313671, 3336571891, 3584528711,
   113926993, 338241895, 666307205, 773529912, 1294757372, 1396182291,
   1695183700, 1986661051, 2177026350, 2456956037, 2730485921, 2820302411,
   3259730800, 3345764771, 3516065817, 3600352804, 4094571909, 275423344,
   430227734, 506948616, 659060556, 883997877, 958139571, 1322822218,
   1537002063, 1747873779, 1955562222, 2024104815, 2227730452, 2361852424,
   2428436474, 2756734187, 3204031479, 3329325298]

structure H8 where
  a : Nat
  b : Nat
  c : Nat
  d : Nat
  e : Nat
  f : Nat
  g : Nat
  h : Nat
  deriving Repr, DecidableEq

def shaInit : H8 :=
  ⟨1779033703, 3144134277, 1013904242, 2773480762, 1359893119, 2600822924, 528734635, 1541459225⟩

def compressRound (w k : Nat) (s : H8) : H8 :=
  let t1 := w32 (s.h + bigSigma1 s.e + chFn s.e s.f s.g + k + w)
  let t2 := w32 (bigSigma0 s.a + majFn s.a s.b s.c)
  ⟨w32 (t1 + t2), s.a, s.b, s.c, w32 (s.d + t1), s.e, s.f, s.g⟩

/-- Assemble big-endian 32-bit words out of a byte list. -/
def toWords : List Nat → List Nat
  | b0 :: b1 :: b2 :: b3 :: rest => (((b0 * 256 + b1) * 256 + b2) * 256 + b3) :: toWords rest
  | _ => []

/-- Extend the 16-word message schedule to 64 words. -/
def extendSchedule : Nat → Array Nat → Array Nat
  | 0, ws => ws
  | n + 1, ws =>
    let x := w32 (smallSigma1 (ws.getD (ws.size - 2) 0) + ws.getD (ws.size - 7) 0 +
                  smallSigma0 (ws.getD (ws.size - 15) 0) + ws.getD (ws.size - 16) 0)
    extendSchedule n (ws.push x)

def processBlock (hs : H8) (block : List Nat) : H8 :=
  let ws := extendSchedule 48 (toWords block).toArray
  let s := (List.range 64).foldl (fun s i => compressRound (ws.getD i 0) (shaK.getD i 0) s) hs
  ⟨w32 (hs.a + s.a), w32 (hs.b + s.b), w32 (hs.c + s.c), w32 (hs.d + s.d),
   w32 (hs.e + s.e), w32 (hs.f + s.f), w32 (hs.g + s.g), w32 (hs.h + s.h)⟩

def chunk64Aux : Nat → List Nat → List (List Nat)
  | 0, _ => []
  | _, [] => []
  | fuel + 1, x :: xs => ((x :: xs).take 64) :: chunk64Aux fuel ((x :: xs).drop 64)

/-- Split into 64-byte blocks (structural fuel recursion on the length bound,
so that the kernel can evaluate it). -/
def chunk64 (l : List Nat) : List (List Nat) := chunk64Aux l.length l

/-- SHA-256 padding: append 0x80, zeros, then the 64-bit big-endian bit length. -/
def shaPad (msg : List Nat) : List Nat :=
  let bitLen := 8 * msg.length
  let zeros := (55 + 64 - msg.length % 64) % 64
  msg ++ [0x80] ++ List.replicate zeros 0 ++
    (List.range 8).map (fun i => (bitLen >>> (8 * (7 - i))) % 256)

def wordBytes (w : Nat) : List Nat := [(w >>> 24) % 256, (w >>> 16) % 256, (w >>> 8) % 256, w % 256]

/-- SHA-256 of a byte list, as a list of 32 bytes. -/
def sha256 (msg : List Nat) : List Nat :=
  let hs := (chunk64 (shaPad msg)).foldl processBlock shaInit
  wordBytes hs.a ++ wordBytes hs.b ++ wordBytes hs.c ++ wordBytes hs.d ++
  wordBytes hs.e ++ wordBytes hs.f ++ wordBytes hs.g ++ wordBytes hs.h

/-- UTF-8 encoding of one code point (Rust `str::as_bytes` on each `char`). -/
def utf8Bytes (c : Char) : List Nat :=
  let n := c.toNat
  if n < 0x80 then [n]
  else if n < 0x800 then [0xC0 ||| (n >>> 6), 0x80 ||| (n &&& 0x3F)]
  else if n < 0x10000 then
    [0xE0 ||| (n >>> 12), 0x80 ||| ((n >>> 6) &&& 0x3F), 0x80 ||| (n &&& 0x3F)]
  else
    [0xF0 ||| (n >>> 18), 0x80 ||| ((n >>> 12) &&& 0x3F), 0x80 ||| ((n >>> 6) &&& 0x3F),
     0x80 ||| (n &&& 0x3F)]

def strBytes (s : String) : List Nat := (s.data.map utf8Bytes).flatten

def hexDigit (n : Nat) : Char := if n < 10 then Char.ofNat (48 + n) else Char.ofNat (87 + n)

def byteHex (b : Nat) : List Char := [hexDigit (b / 16), hexDigit (b % 16)]

/-- `utils.rs::hash_password`: SHA-256 of the password bytes, formatted `{:x}`
(lowercase hex). -/
def hash_password (password : String) : String :=
  String.mk ((sha256 (strBytes password)).map byteHex).flatten

/-! ## Data model (`domains/user/model.rs`)

Timestamps (`chrono::DateTime<Utc>`) are embedded as `Int` Unix seconds.
Row ids (`SERIAL`) are allocated from monotone counters held in `DB`,
mirroring the Postgres sequences. -/

structure User where
  id : Int
  email : String
  display_name : String
  password : String
  email_verified : Bool
  created_at : Option Int
  deriving Repr, DecidableEq

structure VerificationToken where
  id : Int
  user_id : Int
  token : String
  token_type : String
  expires_at : Int
  used_at : Option Int
  created_at : Option Int
  deriving Repr, DecidableEq

/-- The two logical tables of the identity core, plus the id sequences. -/
structure DB where
  users : List User
  tokens : List VerificationToken
  nextUserId : Int
  nextTokenId : Int
  deriving Repr, DecidableEq

structure CreateUserRequest where
  email : String
  display_name : String
  password : String
  deriving Repr, DecidableEq

structure LoginRequest where
  email : String
  password : String
  deriving Repr, DecidableEq

/-- `utils.rs::validate_password`: the password must contain an ASCII letter
(regex `[a-zA-Z]`) and a digit (regex `\d`), in that check order. -/
def validate_password (password : String) : Bool :=
  password.data.any Char.isAlpha && password.data.any Char.isDigit

/-- The `validator` crate boundary on `CreateUserRequest` (model.rs lines
28-36): email shape, non-empty display name, password length at least 8 and
the custom `validate_password` rule.  The crate's RFC email check is an
external collaborator (spec section 6, Validator boundary) and is embedded as
requiring exactly one at sign, not at either end. -/
def emailShaped (s : String) : Bool :=
  (s.data.countP (· = '@') = 1) && s.data.head? ≠ some '@' && s.data.getLast? ≠ some '@'

def CreateUserRequest.validate (req : CreateUserRequest) : Bool :=
  emailShaped req.email && req.display_name.length ≥ 1 &&
    req.password.length ≥ 8 && validate_password req.password

/-! ## Errors -/

inductive SqlxError
  | uniqueViolation
  | rowNotFound
  deriving Repr, DecidableEq

/-- `repository.rs::RepositoryError`. -/
inductive RepositoryError
  | DatabaseError (e : SqlxError)
  | NotFound (msg : String)
  | Conflict (msg : String)
  deriving Repr, DecidableEq

/-- `service.rs::UserServiceError`. -/
inductive UserServiceError
  | Unauthorized (msg : String)
  | ValidationError (msg : String)
  | InternalServerError (msg : String)
  | InvalidToken (msg : String)
  | TokenExpired (msg : String)
  | TokenAlreadyUsed (msg : String)
  | UserNotFound (msg : String)
  deriving Repr, DecidableEq

/-- `impl From<sqlx::Error> for UserServiceError`: every raw database error
becomes `InternalServerError("Database error: ...")`. -/
def UserServiceError.ofSqlx : SqlxError → UserServiceError
  | .uniqueViolation => .InternalServerError "Database error: unique violation"
  | .rowNotFound => .InternalServerError "Database error: row not found"

/-- `impl From<RepositoryError> for UserServiceError`. -/
def UserServiceError.ofRepository : RepositoryError → UserServiceError
  | .DatabaseError .uniqueViolation => .InternalServerError "Database error: unique violation"
  | .DatabaseError .rowNotFound => .InternalServerError "Database error: row not found"
  | .NotFound msg => .UserNotFound msg
  | .Conflict msg => .InternalServerError msg

/-! ## JWT codec (`utils/jwt.rs`)

The `jsonwebtoken` crate is an external collaborator; a signed token is
embedded as the pair of the signing secret consumed by HMAC and the claims
carried in the payload.  Both `encode_jwt` and `decode_jwt` read the
`JWT_SECRET` environment variable at every call (`std::env::var` inside the
function bodies); the ambient environment is therefore an argument of each
call.  The `.expect` panic on a missing variable is embedded as the
`missingSecretPanic` error case. -/

def Env := String → Option String

/-- Rust's `as usize` cast of an `i64` timestamp: wraps modulo 2^64. -/
def usizeOfTimestamp (t : Int) : Nat := (t % (2 ^ 64 : Nat)).toNat

structure Claims where
  sub : String
  exp : Nat
  user_id : Int
  deriving Repr, DecidableEq

inductive JwtError
  | missingSecretPanic
  | invalidSignature
  | expiredSignature
  deriving Repr, DecidableEq

structure SignedJwt where
  secret : String
  claims : Claims
  deriving Repr, DecidableEq

def encode_jwt (env : Env) (claims : Claims) : Except JwtError SignedJwt :=
  match env "JWT_SECRET" with
  | none => .error .missingSecretPanic
  | some secret => .ok ⟨secret, claims⟩

/-- `Validation::default()` verifies the signature first, then checks `exp`
against the current time with the default 60-second leeway. -/
def decode_jwt (env : Env) (now : Int) (token : SignedJwt) : Except JwtError Claims :=
  match env "JWT_SECRET" with
  | none => .error .missingSecretPanic
  | some secret =>
    if token.secret = secret then
      if token.claims.exp + 60 < usizeOfTimestamp now then .error .expiredSignature
      else .ok token.claims
    else .error .invalidSignature

/-! ## Store primitives (`domains/user/model.rs` SQL operations) -/

/-- `chrono::Duration::hours(24)` in seconds. -/
def HOURS24 : Int := 24 * 60 * 60

/-- `User::create_with_executor`: hashes the password and inserts the row with
`email_verified = FALSE`.  The unique index on `users.email` rejects a
duplicate email with a uniqueness violation. -/
def User.create_with_executor (db : DB) (now : Int) (email display_name password : String) :
    Except SqlxError (User × DB) :=
  if (db.users.any fun u => u.email = email) then .error .uniqueViolation
  else
    let u : User := ⟨db.nextUserId, email, display_name, hash_password password, false, some now⟩
    .ok (u, { db with users := db.users ++ [u], nextUserId := db.nextUserId + 1 })

/-- `User::find_by_email`: `SELECT ... WHERE email = $1`, `fetch_optional`. -/
def User.find_by_email (db : DB) (email : String) : Option User :=
  db.users.find? fun u => u.email = email

/-- `User::find_by_id`: `SELECT ... WHERE id = $1`, `fetch_optional`. -/
def User.find_by_id (db : DB) (id : Int) : Option User :=
  db.users.find? fun u => u.id = id

/-- Row update used by `User::verify_email` / `verify_email_with_executor`:
`UPDATE users SET email_verified = TRUE WHERE id = $1`. -/
def setVerified (uid : Int) (u : User) : User :=
  if u.id = uid then { u with email_verified := true } else u

/-- `User::verify_email_with_executor` (the transactional variant of
`User::verify_email`, model.rs lines 115-131): `UPDATE users SET
email_verified = TRUE WHERE id = $1 RETURNING *`, `fetch_one` — a missing row
is a `RowNotFound` database error. -/
def User.verify_email_with_executor (db : DB) (uid : Int) : Except SqlxError (User × DB) :=
  match db.users.find? (fun u => u.id = uid) with
  | none => .error .rowNotFound
  | some u => .ok ({ u with email_verified := true },
      { db with users := db.users.map (setVerified uid) })

/-- Modelled from the spec: `VerificationToken::create_with_executor`, the
two-argument token-store `create(account_id, category)` called by the service
(service.rs lines 122-124) but absent from `model.rs` (which only carries an
older four-argument variant taking `expires_at` from the caller).  Per spec
section 4.4 it generates a random unguessable token string (passed here as
the oracle `tokStr`), sets `expires_at = now + 24h` and `used_at = null`. -/
def VerificationToken.create_with_executor (db : DB) (now : Int) (tokStr : String)
    (user_id : Int) (token_type : String) : Except SqlxError (VerificationToken × DB) :=
  let t : VerificationToken := ⟨db.nextTokenId, user_id, tokStr, token_type, now + HOURS24, none, some now⟩
  .ok (t, { db with tokens := db.tokens ++ [t], nextTokenId := db.nextTokenId + 1 })

/-- `VerificationToken::find_by_token`: `SELECT ... WHERE token = $1`. -/
def VerificationToken.find_by_token (db : DB) (tok : String) : Option VerificationToken :=
  db.tokens.find? fun t => t.token = tok

/-- Modelled from the spec: `VerificationToken::find_by_token_for_update`,
called by `verify_email` (service.rs line 205) but absent from `model.rs`.
Per spec section 4.4 (`find_by_value_for_update`) it returns the same row as
the plain lookup while additionally holding an exclusive row lock for the
enclosing transaction; the lock semantics are modelled separately in the
concurrency section below. -/
def VerificationToken.find_by_token_for_update (db : DB) (tok : String) :
    Option VerificationToken :=
  VerificationToken.find_by_token db tok

/-- Row update used by `VerificationToken::mark_as_used`:
`UPDATE verification_tokens SET used_at = NOW() WHERE id = $1`. -/
def setUsed (tid : Int) (now : Int) (t : VerificationToken) : VerificationToken :=
  if t.id = tid then { t with used_at := some now } else t

/-- `VerificationToken::mark_as_used_with_executor` (the transactional variant
of `VerificationToken::mark_as_used`, model.rs lines 179-194): sets
`used_at = NOW()`, `fetch_one` on the `RETURNING` row. -/
def VerificationToken.mark_as_used_with_executor (db : DB) (now : Int) (tid : Int) :
    Except SqlxError (VerificationToken × DB) :=
  match db.tokens.find? (fun t => t.id = tid) with
  | none => .error .rowNotFound
  | some t => .ok ({ t with used_at := some now },
      { db with tokens := db.tokens.map (setUsed tid now) })

/-- Modelled from the spec: `SqlxVerificationTokenRepository::create_verification_token`
as invoked by `send_verification_email` (service.rs lines 174-177) with only
`(user_id, token_type)` — the trait in `repository.rs` is an older variant
taking `expires_at`.  It wraps the token-store `create` and lifts database
errors into `RepositoryError::DatabaseError`. -/
def create_verification_token (db : DB) (now : Int) (tokStr : String)
    (user_id : Int) (token_type : String) : Except RepositoryError (VerificationToken × DB) :=
  match VerificationToken.create_with_executor db now tokStr user_id token_type with
  | .error e => .error (.DatabaseError e)
  | .ok r => .ok r

/-- A token is accepted by the redemption path at time `now` iff it is unused
and not expired — the two checks of `verify_email` (service.rs lines 209-219). -/
def VerificationToken.redeemableAt (t : VerificationToken) (now : Int) : Bool :=
  t.used_at.isNone && !(t.expires_at < now)

/-! ## Identity service (`domains/user/service.rs`)

Each operation takes the ambient environment (for the JWT secret), the current
time, and oracle inputs for the generated token string and the SMTP outcome,
and returns its `Result` together with the database state after the call
(transactions that fail before commit leave the state unchanged). -/

structure LoginResponse where
  token : SignedJwt
  user_id : Int
  email : String
  display_name : String
  deriving Repr, DecidableEq

structure VerifyEmailResponse where
  token : SignedJwt
  user_id : Int
  email : String
  display_name : String
  deriving Repr, DecidableEq

/-- `UserServiceImpl::send_verification_email_to_user` (service.rs lines
87-106): builds the verification email and sends it; a send failure is only
logged (`tracing::error`) and the function returns `Ok(())` either way.
`emailOk` is the outcome of the SMTP collaborator. -/
def send_verification_email_to_user (emailOk : Bool) : Except UserServiceError Unit :=
  match emailOk with
  | true => .ok ()
  | false => .ok ()

/-- `UserServiceImpl::create_user` (service.rs lines 115-133): validate, then
inside one transaction insert the user and a fresh `email_verification` token,
commit, then best-effort email dispatch, returning the created user.  An error
before `tx.commit()` drops the transaction, rolling both inserts back. -/
def create_user (db : DB) (now : Int) (tokStr : String) (emailOk : Bool)
    (req : CreateUserRequest) : Except UserServiceError User × DB :=
  if !req.validate then (.error (.ValidationError "Validation failed"), db)
  else
    match User.create_with_executor db now req.email req.display_name req.password with
    | .error e => (.error (UserServiceError.ofSqlx e), db)
    | .ok (user, db1) =>
      match VerificationToken.create_with_executor db1 now tokStr user.id "email_verification" with
      | .error e => (.error (UserServiceError.ofSqlx e), db)
      | .ok (_, db2) =>
        match send_verification_email_to_user emailOk with
        | .error e => (.error e, db2)
        | .ok () => (.ok user, db2)

/-- `UserServiceImpl::login` (service.rs lines 135-171): absent email,
unverified email and password-hash mismatch each return `Unauthorized`;
success issues claims expiring 24 hours from now.  The operation performs no
store mutation. -/
def login (env : Env) (db : DB) (now : Int) (req : LoginRequest) :
    Except UserServiceError LoginResponse :=
  match User.find_by_email db req.email with
  | none => .error (.Unauthorized "Invalid credentials")
  | some user =>
    if !user.email_verified then .error (.Unauthorized "Email not verified")
    else
      let hashed_input_password := hash_password req.password
      if user.password ≠ hashed_input_password then .error (.Unauthorized "Invalid credentials")
      else
        let claims : Claims := ⟨user.email, usizeOfTimestamp (now + HOURS24), user.id⟩
        match encode_jwt env claims with
        | .error _ => .error (.InternalServerError "JWT encoding failed")
        | .ok token => .ok ⟨token, user.id, user.email, user.display_name⟩

/-- `UserServiceImpl::send_verification_email` (service.rs lines 173-190):
creates a token through the repository (auto-committed, outside any
transaction), then looks the user up — `UserNotFound` if absent — then
best-effort email dispatch. -/
def send_verification_email (db : DB) (now : Int) (tokStr : String) (emailOk : Bool)
    (user_id : Int) : Except UserServiceError Unit × DB :=
  match create_verification_token db now tokStr user_id "email_verification" with
  | .error e => (.error (UserServiceError.ofRepository e), db)
  | .ok (_, db1) =>
    match User.find_by_id db1 user_id with
    | none => (.error (.UserNotFound "User not found"), db1)
    | some _ =>
      match send_verification_email_to_user emailOk with
      | .error e => (.error e, db1)
      | .ok () => (.ok (), db1)

/-- `UserServiceImpl::send_verification_email_by_email` (service.rs lines
192-200): silently succeeds when the email is unknown or already verified. -/
def send_verification_email_by_email (db : DB) (now : Int) (tokStr : String) (emailOk : Bool)
    (email : String) : Except UserServiceError Unit × DB :=
  match User.find_by_email db email with
  | none => (.ok (), db)
  | some user =>
    if !user.email_verified then send_verification_email db now tokStr emailOk user.id
    else (.ok (), db)

/-- `UserServiceImpl::verify_email` (service.rs lines 202-246): inside one
transaction, row-locked lookup (`InvalidToken` if absent), expiry check
(`TokenExpired`), used check (`TokenAlreadyUsed`), then mark the owner
verified and the token used, commit, and issue fresh session claims. -/
def verify_email (env : Env) (db : DB) (now : Int) (tokenStr : String) :
    Except UserServiceError VerifyEmailResponse × DB :=
  match VerificationToken.find_by_token_for_update db tokenStr with
  | none => (.error (.InvalidToken "Invalid verification token"), db)
  | some vt =>
    if vt.expires_at < now then (.error (.TokenExpired "Verification token has expired"), db)
    else if vt.used_at.isSome then
      (.error (.TokenAlreadyUsed "Verification token has already been used"), db)
    else
      match User.verify_email_with_executor db vt.user_id with
      | .error e => (.error (UserServiceError.ofSqlx e), db)
      | .ok (user, db1) =>
        match VerificationToken.mark_as_used_with_executor db1 now vt.id with
        | .error e => (.error (UserServiceError.ofSqlx e), db)
        | .ok (_, db2) =>
          let claims : Claims := ⟨user.email, usizeOfTimestamp (now + HOURS24), user.id⟩
          match encode_jwt env claims with
          | .error _ => (.error (.InternalServerError "JWT encoding failed"), db2)
          | .ok token => (.ok ⟨token, user.id, user.email, user.display_name⟩, db2)

/-- `UserServiceImpl::get_user_by_id` (service.rs lines 248-256). -/
def get_user_by_id (db : DB) (user_id : Int) : Except UserServiceError User :=
  match User.find_by_id db user_id with
  | none => .error (.UserNotFound "User not found")
  | some user => .ok user

/-! ## The service operations as a single step alphabet (for the C5 invariant) -/

inductive Op
  | opCreateUser (now : Int) (tokStr : String) (emailOk : Bool) (req : CreateUserRequest)
  | opLogin (now : Int) (req : LoginRequest)
  | opSendVerificationEmail (now : Int) (tokStr : String) (emailOk : Bool) (user_id : Int)
  | opSendVerificationEmailByEmail (now : Int) (tokStr : String) (emailOk : Bool) (email : String)
  | opVerifyEmail (now : Int) (tokenStr : String)
  | opGetUserById (user_id : Int)

/-- The database state after one service operation.  `login` and
`get_user_by_id` are pure reads and leave the stores untouched. -/
def Op.apply (env : Env) (db : DB) : Op → DB
  | .opCreateUser now tokStr emailOk req => (create_user db now tokStr emailOk req).2
  | .opLogin _ _ => db
  | .opSendVerificationEmail now tokStr emailOk uid =>
      (send_verification_email db now tokStr emailOk uid).2
  | .opSendVerificationEmailByEmail now tokStr emailOk email =>
      (send_verification_email_by_email db now tokStr emailOk email).2
  | .opVerifyEmail now tokenStr => (verify_email env db now tokenStr).2
  | .opGetUserById _ => db

/-- Per-user monotonicity: same row id, and a set `email_verified` flag is
never cleared. -/
def userMono (u u' : User) : Prop :=
  u'.id = u.id ∧ (u.email_verified = true → u'.email_verified = true)

/-- Per-token monotonicity: same row id, and a set `used_at` is never cleared
or overwritten. -/
def tokenMono (t t' : VerificationToken) : Prop :=
  t'.id = t.id ∧ ∀ ts, t.used_at = some ts → t'.used_at = some ts

/-- Every pre-existing row survives the operation, in place, monotonically;
new rows may be appended after them. -/
def DBMono (db db' : DB) : Prop :=
  List.Forall₂ userMono db.users (db'.users.take db.users.length) ∧
  List.Forall₂ tokenMono db.tokens (db'.tokens.take db.tokens.length)

/-! ## Concurrency model for token redemption (C6)

Two concurrent `verify_email` transactions on the same token string.  Per spec
section 4.4, `find_by_value_for_update` holds an exclusive row lock on the
token row for the duration of the enclosing transaction, so a transaction
whose lookup finds the row cannot proceed while another holds the lock.  Each
transaction is split into its observable steps: the locked lookup plus
validity checks, the account update, and the mark-used update followed by the
commit (which releases the lock).  A scheduler interleaves the two threads
arbitrarily; a thread that is blocked on the lock makes no progress when
scheduled. -/

inductive TxPhase
  | ready
  | checked (vt : VerificationToken)
  | wroteUser (vt : VerificationToken) (snapshot : DB)
  | finished (r : Except UserServiceError Unit)
  deriving Repr

structure Config where
  db : DB
  lock : Option Bool
  phA : TxPhase
  phB : TxPhase
  deriving Repr

def Config.ph (c : Config) (tid : Bool) : TxPhase := if tid then c.phA else c.phB

def Config.withPh (c : Config) (tid : Bool) (ph : TxPhase) : Config :=
  if tid then { c with phA := ph } else { c with phB := ph }

/-- One scheduled step of thread `tid` running `verify_email token_string`. -/
def stepThread (now : Int) (tokenStr : String) (tid : Bool) (c : Config) : Config :=
  match c.ph tid with
  | .finished _ => c
  | .ready =>
    match c.lock with
    | some _ => c
    | none =>
      match VerificationToken.find_by_token_for_update c.db tokenStr with
      | none => c.withPh tid (.finished (.error (.InvalidToken "Invalid verification token")))
      | some vt =>
        if vt.expires_at < now then
          c.withPh tid (.finished (.error (.TokenExpired "Verification token has expired")))
        else if vt.used_at.isSome then
          c.withPh tid (.finished (.error (.TokenAlreadyUsed "Verification token has already been used")))
        else ({ c with lock := some tid } : Config).withPh tid (.checked vt)
  | .checked vt =>
    match User.verify_email_with_executor c.db vt.user_id with
    | .error _ => ({ c with lock := none } : Config).withPh tid
        (.finished (.error (.InternalServerError "Database error: row not found")))
    | .ok (_, db1) => ({ c with db := db1 } : Config).withPh tid (.wroteUser vt c.db)
  | .wroteUser vt snap =>
    match VerificationToken.mark_as_used_with_executor c.db now vt.id with
    | .error _ => ({ c with db := snap, lock := none } : Config).withPh tid
        (.finished (.error (.InternalServerError "Database error: row not found")))
    | .ok (_, db2) => ({ c with db := db2, lock := none } : Config).withPh tid (.finished (.ok ()))

def runSched (now : Int) (tokenStr : String) : List Bool → Config → Config
  | [], c => c
  | t :: ts, c => runSched now tokenStr ts (stepThread now tokenStr t c)

/-- Inductive invariant of the two-thread redemption system on a live token:
before anyone runs both threads are ready on the initial store `db`; while a
thread holds the row lock the other is stuck in `ready`; after the winner
commits (store `db2`, user update `db1` in between) the loser can only
re-read the now-used token and finish with `TokenAlreadyUsed`. -/
def ConcInv (db db1 db2 : DB) (vt : VerificationToken) (c : Config) : Prop :=
  c = ⟨db, none, .ready, .ready⟩ ∨
  c = ⟨db, some true, .checked vt, .ready⟩ ∨
  c = ⟨db, some false, .ready, .checked vt⟩ ∨
  c = ⟨db1, some true, .wroteUser vt db, .ready⟩ ∨
  c = ⟨db1, some false, .ready, .wroteUser vt db⟩ ∨
  c = ⟨db2, none, .finished (.ok ()), .ready⟩ ∨
  c = ⟨db2, none, .ready, .finished (.ok ())⟩ ∨
  c = ⟨db2, none, .finished (.ok ()),
        .finished (.error (.TokenAlreadyUsed "Verification token has already been used"))⟩ ∨
  c = ⟨db2, none,
        .finished (.error (.TokenAlreadyUsed "Verification token has already been used")),
        .finished (.ok ())⟩

/-! ## Concrete fixtures used by the witness theorems -/

def envA : Env := fun _ => some "secret-one"

def envB : Env := fun _ => some "secret-two"

def claimsW : Claims := ⟨"a@example.com", 1000, 1⟩

def userW : User := ⟨1, "a@example.com", "A", "stored-digest", false, none⟩

def userVerifiedW : User := ⟨2, "b@example.com", "B", "stored-digest", true, none⟩

def tokenW : VerificationToken := ⟨1, 1, "tokW", "email_verification", 1000, none, none⟩

def tokenUsedW : VerificationToken := ⟨2, 2, "usedW", "email_verification", 1000, some 5, none⟩

def dbW : DB := ⟨[userW, userVerifiedW], [tokenW, tokenUsedW], 3, 3⟩

def dbEmpty : DB := ⟨[], [], 1, 1⟩

def reqW : CreateUserRequest := ⟨"c@example.com", "C", "password123"⟩

/-! ## Helper lemmas -/

theorem send_to_user_ok (emailOk : Bool) : send_verification_email_to_user emailOk = .ok () := by
  cases emailOk <;> rfl

theorem find?_map_eq {α : Type} (l : List α) (p : α → Bool) (f : α → α)
    (hp : ∀ x, p (f x) = p x) : (l.map f).find? p = (l.find? p).map f := by
  induction l with
  | nil => rfl
  | cons x xs ih =>
    simp only [List.map_cons, List.find?_cons, hp x]
    cases h : p x <;> simp [ih]

/-- After `verify_email`'s user update, lookups by id return the updated row. -/
theorem find_by_id_after_setVerified (db : DB) (uid : Int) (u : User)
    (hu : User.find_by_id db uid = some u) :
    User.find_by_id { db with users := db.users.map (setVerified uid) } uid =
      some { u with email_verified := true } := by
  unfold User.find_by_id at hu ⊢
  rw [find?_map_eq _ _ _ (fun x => by by_cases h : x.id = uid <;> simp [setVerified, h]), hu,
    Option.map_some']
  have hp := List.find?_some hu
  simp only [decide_eq_true_eq] at hp
  simp [setVerified, hp]

/-- After `mark_as_used`, lookups by token string return the updated row. -/
theorem find_by_token_after_setUsed (db : DB) (tok : String) (now : Int)
    (vt : VerificationToken) (hvt : VerificationToken.find_by_token db tok = some vt) :
    VerificationToken.find_by_token { db with tokens := db.tokens.map (setUsed vt.id now) } tok =
      some { vt with used_at := some now } := by
  unfold VerificationToken.find_by_token at hvt ⊢
  rw [find?_map_eq _ _ _ (fun x => by by_cases h : x.id = vt.id <;> simp [setUsed, h]), hvt,
    Option.map_some']
  simp [setUsed]

/-! ## Claim theorems -/

/-- C7: every token creation through the store's `create` operation
(`create_verification_token`, wrapping `VerificationToken::create_with_executor`)
sets `expires_at` to exactly 24 hours after the current time and `used_at` to
null, for every account id and category. -/
theorem C7_create_token_24h_unused (db : DB) (now : Int) (tokStr : String)
    (user_id : Int) (token_type : String) :
    ∃ t db', create_verification_token db now tokStr user_id token_type = .ok (t, db') ∧
      t.expires_at = now + 24 * 60 * 60 ∧ t.used_at = none ∧
      VerificationToken.create_with_executor db now tokStr user_id token_type = .ok (t, db') :=
  ⟨_, _, rfl, rfl, rfl, rfl⟩

/-- C10: `send_verification_email` on an id with no account returns
`UserNotFound`, yet the token it created first (auto-committed through the
repository, outside any transaction) persists: the error path is not atomic. -/
theorem C10_send_verification_email_error_leaks_token (db : DB) (now : Int) (tokStr : String)
    (emailOk : Bool) (uid : Int) (habsent : User.find_by_id db uid = none) :
    send_verification_email db now tokStr emailOk uid =
      (.error (.UserNotFound "User not found"),
       { db with
          tokens := db.tokens ++
            [⟨db.nextTokenId, uid, tokStr, "email_verification", now + HOURS24, none, some now⟩],
          nextTokenId := db.nextTokenId + 1 }) ∧
    ∃ t ∈ (send_verification_email db now tokStr emailOk uid).2.tokens,
      t.token = tokStr ∧ t.user_id = uid ∧ t.used_at = none := by
  have hfind : User.find_by_id
      { db with
        tokens := db.tokens ++
          [⟨db.nextTokenId, uid, tokStr, "email_verification", now + HOURS24, none, some now⟩],
        nextTokenId := db.nextTokenId + 1 } uid = none := habsent
  refine ⟨?_, ?_⟩
  · simp [send_verification_email, create_verification_token,
      VerificationToken.create_with_executor, hfind]
  · refine ⟨⟨db.nextTokenId, uid, tokStr, "email_verification", now + HOURS24, none, some now⟩,
      ?_, rfl, rfl, rfl⟩
    simp [send_verification_email, create_verification_token,
      VerificationToken.create_with_executor, hfind]

/-- C10 witness: concrete run on the empty store. -/
theorem C10_witness :
    send_verification_email dbEmpty 50 "tk" false 7 =
      (.error (.UserNotFound "User not found"),
       ⟨[], [⟨1, 7, "tk", "email_verification", 50 + HOURS24, none, some 50⟩], 1, 2⟩) :=
  (C10_send_verification_email_error_leaks_token dbEmpty 50 "tk" false 7 rfl).1

/-- C9: a notifier (SMTP) failure never fails the enclosing operation:
`create_user`'s outcome is entirely independent of the email outcome, and for
an existing account `send_verification_email` still returns `Ok` when the
email send errors, with the created token present and redeemable. -/
theorem C9_notifier_failure_harmless (db : DB) (now : Int) (tokStr : String) (uid : Int)
    (req : CreateUserRequest) (u : User) (huser : User.find_by_id db uid = some u) :
    (∀ emailOk : Bool, create_user db now tokStr emailOk req = create_user db now tokStr true req) ∧
    (send_verification_email db now tokStr false uid).1 = .ok () ∧
    ∃ t ∈ (send_verification_email db now tokStr false uid).2.tokens,
      t.token = tokStr ∧ t.user_id = uid ∧ t.redeemableAt now = true := by
  have hfind : User.find_by_id
      { db with
        tokens := db.tokens ++
          [⟨db.nextTokenId, uid, tokStr, "email_verification", now + HOURS24, none, some now⟩],
        nextTokenId := db.nextTokenId + 1 } uid = some u := huser
  refine ⟨?_, ?_, ?_⟩
  · intro emailOk
    simp only [create_user, send_to_user_ok]
  · simp [send_verification_email, create_verification_token,
      VerificationToken.create_with_executor, hfind, send_to_user_ok]
  · refine ⟨⟨db.nextTokenId, uid, tokStr, "email_verification", now + HOURS24, none, some now⟩,
      ?_, rfl, rfl, ?_⟩
    · simp [send_verification_email, create_verification_token,
        VerificationToken.create_with_executor, hfind, send_to_user_ok]
    · simp [VerificationToken.redeemableAt, HOURS24]

/-- C9 witness: concrete run against a store holding the account. -/
theorem C9_witness :
    (send_verification_email dbW 10 "fresh-tok" false 1).1 = .ok () ∧
    ∃ t ∈ (send_verification_email dbW 10 "fresh-tok" false 1).2.tokens,
      t.token = "fresh-tok" ∧ t.user_id = 1 ∧ t.redeemableAt 10 = true :=
  ⟨(C9_notifier_failure_harmless dbW 10 "fresh-tok" 1 reqW userW rfl).2.1,
   (C9_notifier_failure_harmless dbW 10 "fresh-tok" 1 reqW userW rfl).2.2⟩

/-- C2: `verify_email`'s failure taxonomy and precedence — `InvalidToken` when
no token matches; otherwise `TokenExpired` when `expires_at < now` (checked
before the used check); otherwise `TokenAlreadyUsed` when `used_at` is set —
and in each failure case the returned state is the unchanged database (the
transaction never reaches the updates). -/
theorem C2_verify_email_failure_taxonomy (env : Env) (db : DB) (now : Int) (tokenStr : String) :
    (VerificationToken.find_by_token_for_update db tokenStr = none →
      verify_email env db now tokenStr =
        (.error (.InvalidToken "Invalid verification token"), db)) ∧
    (∀ vt, VerificationToken.find_by_token_for_update db tokenStr = some vt →
      vt.expires_at < now →
      verify_email env db now tokenStr =
        (.error (.TokenExpired "Verification token has expired"), db)) ∧
    (∀ vt, VerificationToken.find_by_token_for_update db tokenStr = some vt →
      ¬ (vt.expires_at < now) → vt.used_at.isSome = true →
      verify_email env db now tokenStr =
        (.error (.TokenAlreadyUsed "Verification token has already been used"), db)) := by
  refine ⟨fun h => ?_, fun vt h hexp => ?_, fun vt h hexp hused => ?_⟩
  · simp [verify_email, h]
  · simp [verify_email, h, hexp]
  · simp [verify_email, h, hexp, hused]

/-- C2 witness: redeeming the already-used concrete token leaves the store
unchanged and reports `TokenAlreadyUsed`. -/
theorem C2_witness :
    verify_email envA dbW 50 "usedW" =
      (.error (.TokenAlreadyUsed "Verification token has already been used"), dbW) :=
  (C2_verify_email_failure_taxonomy envA dbW 50 "usedW").2.2 tokenUsedW rfl
    (by decide) rfl

/-- C3: every authentication failure of `login` — unknown email, unverified
account (whatever the password), or password-hash mismatch — surfaces as the
single `Unauthorized` error kind. -/
theorem C3_login_unauthorized_uniform (env : Env) (db : DB) (now : Int) (req : LoginRequest)
    (h : User.find_by_email db req.email = none ∨
      ∃ u, User.find_by_email db req.email = some u ∧
        (u.email_verified = false ∨ hash_password req.password ≠ u.password)) :
    ∃ msg, login env db now req = .error (.Unauthorized msg) := by
  rcases h with h | ⟨u, hu, h2⟩
  · exact ⟨"Invalid credentials", by simp [login, h]⟩
  · cases hv : u.email_verified
    · exact ⟨"Email not verified", by simp [login, hu, hv]⟩
    · rcases h2 with h2 | h2
      · rw [hv] at h2; cases h2
      · exact ⟨"Invalid credentials", by simp [login, hu, hv, Ne.symm h2]⟩

/-- C3 witness: a verified account with a wrong password is rejected as
`Unauthorized`. -/
theorem C3_witness :
    ∃ msg, login envA dbW 0 ⟨"a@example.com", "password123"⟩ = .error (.Unauthorized msg) :=
  C3_login_unauthorized_uniform envA dbW 0 ⟨"a@example.com", "password123"⟩
    (Or.inr ⟨userW, rfl, Or.inl rfl⟩)

/-- C8 counterexample: `encode_jwt` does not hold a secret injected at
construction — it reads `JWT_SECRET` from the ambient environment on the call
itself, so two runs whose environments differ (only after any construction
point; no secret is captured at construction at all) produce different
tokens for the same claims. -/
theorem C8_counterexample : encode_jwt envA claimsW ≠ encode_jwt envB claimsW := by
  simp [encode_jwt, envA, envB]

/-- C8 amended: both `encode_jwt` and `decode_jwt` re-read the `JWT_SECRET`
environment variable on every call; the call-time environment determines the
signing secret, and a token encoded under one environment fails signature
validation when decoded under an environment with a different secret. -/
theorem C8_jwt_secret_read_per_call (env env' : Env) (c : Claims) (now : Int) (s s' : String)
    (h : env "JWT_SECRET" = some s) (h' : env' "JWT_SECRET" = some s') (hne : s ≠ s') :
    encode_jwt env c = .ok ⟨s, c⟩ ∧
    encode_jwt env' c = .ok ⟨s', c⟩ ∧
    encode_jwt env c ≠ encode_jwt env' c ∧
    ∀ tok, encode_jwt env c = .ok tok →
      decode_jwt env' now tok = .error .invalidSignature := by
  refine ⟨by simp [encode_jwt, h], by simp [encode_jwt, h'], by simp [encode_jwt, h, h', hne], ?_⟩
  intro tok htok
  rw [encode_jwt, h] at htok
  cases htok
  simp [decode_jwt, h', hne]

/-- C8 witness: concrete environments with distinct secrets. -/
theorem C8_witness :
    encode_jwt envA claimsW = .ok ⟨"secret-one", claimsW⟩ ∧
    decode_jwt envB 0 ⟨"secret-one", claimsW⟩ = .error .invalidSignature :=
  ⟨(C8_jwt_secret_read_per_call envA envB claimsW 0 "secret-one" "secret-two" rfl rfl
      (by decide)).1,
   (C8_jwt_secret_read_per_call envA envB claimsW 0 "secret-one" "secret-two" rfl rfl
      (by decide)).2.2.2 _ rfl⟩

/-- C1: redeeming an existing, unexpired, unused token succeeds, marks the
owning account verified and the token used, and returns session claims whose
subject is the account's email and whose user id is the account's id; a
subsequent redemption of the same token string (at any time at which the
token is still unexpired, in particular immediately) fails with
`TokenAlreadyUsed`. -/
theorem C1_verify_email_success (env : Env) (db : DB) (now now2 : Int) (tokenStr : String)
    (vt : VerificationToken) (u : User) (s : String)
    (hfind : VerificationToken.find_by_token_for_update db tokenStr = some vt)
    (hexp : ¬ (vt.expires_at < now))
    (hused : vt.used_at = none)
    (huser : User.find_by_id db vt.user_id = some u)
    (hsec : env "JWT_SECRET" = some s)
    (hexp2 : ¬ (vt.expires_at < now2)) :
    ∃ db',
      verify_email env db now tokenStr =
        (.ok ⟨⟨s, ⟨u.email, usizeOfTimestamp (now + HOURS24), u.id⟩⟩, u.id, u.email,
          u.display_name⟩, db') ∧
      User.find_by_id db' vt.user_id = some { u with email_verified := true } ∧
      VerificationToken.find_by_token_for_update db' tokenStr =
        some { vt with used_at := some now } ∧
      verify_email env db' now2 tokenStr =
        (.error (.TokenAlreadyUsed "Verification token has already been used"), db') := by
  have huserF := huser
  unfold User.find_by_id at huserF
  have hfindF := hfind
  unfold VerificationToken.find_by_token_for_update VerificationToken.find_by_token at hfindF
  have hexec : User.verify_email_with_executor db vt.user_id =
      .ok ({ u with email_verified := true },
        { db with users := db.users.map (setVerified vt.user_id) }) := by
    unfold User.verify_email_with_executor
    rw [huserF]
  obtain ⟨t0, ht0⟩ : ∃ t0, db.tokens.find? (fun t => t.id = vt.id) = some t0 := by
    cases h : db.tokens.find? (fun t => t.id = vt.id) with
    | some t0 => exact ⟨t0, rfl⟩
    | none =>
      have := List.find?_eq_none.mp h vt (List.mem_of_find?_eq_some hfindF)
      simp at this
  have hmark : VerificationToken.mark_as_used_with_executor
      { db with users := db.users.map (setVerified vt.user_id) } now vt.id =
      .ok ({ t0 with used_at := some now },
        { db with users := db.users.map (setVerified vt.user_id),
                  tokens := db.tokens.map (setUsed vt.id now) }) := by
    unfold VerificationToken.mark_as_used_with_executor
    rw [show ({ db with users := db.users.map (setVerified vt.user_id) } : DB).tokens
        = db.tokens from rfl, ht0]
  refine Exists.intro
    { db with users := db.users.map (setVerified vt.user_id),
              tokens := db.tokens.map (setUsed vt.id now) } ⟨?_, ?_, ?_, ?_⟩
  · simp [verify_email, hfind, hexp, hused, hexec, hmark, encode_jwt, hsec]
  · exact find_by_id_after_setVerified db vt.user_id u huser
  · exact find_by_token_after_setUsed db tokenStr now vt hfind
  · have hfind2 : VerificationToken.find_by_token_for_update
        { db with users := db.users.map (setVerified vt.user_id),
                  tokens := db.tokens.map (setUsed vt.id now) } tokenStr =
        some { vt with used_at := some now } :=
      find_by_token_after_setUsed db tokenStr now vt hfind
    simp [verify_email, hfind2, hexp2]

/-- C1 witness: the concrete live token of the fixture store. -/
theorem C1_witness :
    ∃ db',
      verify_email envA dbW 10 "tokW" =
        (.ok ⟨⟨"secret-one", ⟨"a@example.com", usizeOfTimestamp (10 + HOURS24), 1⟩⟩, 1,
          "a@example.com", "A"⟩, db') ∧
      User.find_by_id db' 1 = some { userW with email_verified := true } ∧
      VerificationToken.find_by_token_for_update db' "tokW" =
        some { tokenW with used_at := some 10 } ∧
      verify_email envA db' 20 "tokW" =
        (.error (.TokenAlreadyUsed "Verification token has already been used"), db') :=
  C1_verify_email_success envA dbW 10 20 "tokW" tokenW userW "secret-one"
    rfl (by decide) rfl rfl rfl (by decide)

/-- C4: for every valid creation request with a fresh email, `create_user`
succeeds, returns the new account unverified, and leaves exactly one token —
a redeemable one — owned by the new account (the freshness side conditions on
`db.nextUserId` hold in every reachable store since ids are sequence-assigned
and rows are never deleted); the caller-visible result does not depend on the
generated token value; and whenever `create_user` fails the store is
unchanged, both inserts having been rolled back with the transaction. -/
theorem C4_create_user_success_and_atomic (db : DB) (now : Int) (tokStr : String)
    (emailOk : Bool) (req : CreateUserRequest) :
    (req.validate = true →
     User.find_by_email db req.email = none →
     (∀ t ∈ db.tokens, t.user_id ≠ db.nextUserId) →
     ∃ u db', create_user db now tokStr emailOk req = (.ok u, db') ∧
       u.email = req.email ∧ u.email_verified = false ∧
       ((db'.tokens.filter (fun t => t.user_id = u.id)).length = 1 ∧
        ∀ t ∈ db'.tokens, t.user_id = u.id → t.redeemableAt now = true)) ∧
    (∀ s1 s2 : String,
      (create_user db now s1 emailOk req).1 = (create_user db now s2 emailOk req).1) ∧
    (∀ e, (create_user db now tokStr emailOk req).1 = .error e →
      (create_user db now tokStr emailOk req).2 = db) := by
  refine ⟨?_, ?_, ?_⟩
  · intro hv hmail hfresh
    unfold User.find_by_email at hmail
    have hany : (db.users.any fun u => u.email = req.email) = false := by
      rw [List.any_eq_false]
      intro x hx
      simpa using List.find?_eq_none.mp hmail x hx
    refine Exists.intro
      ⟨db.nextUserId, req.email, req.display_name, hash_password req.password, false, some now⟩
      (Exists.intro
        { db with
          users := db.users ++
            [⟨db.nextUserId, req.email, req.display_name, hash_password req.password, false,
              some now⟩],
          tokens := db.tokens ++
            [⟨db.nextTokenId, db.nextUserId, tokStr, "email_verification", now + HOURS24, none,
              some now⟩],
          nextUserId := db.nextUserId + 1, nextTokenId := db.nextTokenId + 1 }
        ⟨?_, rfl, rfl, ?_, ?_⟩)
    · simp [create_user, hv, User.create_with_executor, hany,
        VerificationToken.create_with_executor, send_to_user_ok]
    · rw [List.filter_append, List.length_append,
        List.length_eq_zero.mpr (List.filter_eq_nil_iff.mpr ?_)]
      · simp
      · intro t ht
        simpa using hfresh t ht
    · intro t ht hid
      rcases List.mem_append.mp ht with h | h
      · exact absurd hid (by simpa using hfresh t h)
      · rcases List.mem_singleton.mp h with rfl
        simp [VerificationToken.redeemableAt, HOURS24]
  · intro s1 s2
    by_cases hv : req.validate = true
    · cases hc : User.create_with_executor db now req.email req.display_name req.password with
      | error e => simp [create_user, hv, hc]
      | ok p =>
        obtain ⟨usr, db1⟩ := p
        simp [create_user, hv, hc, VerificationToken.create_with_executor, send_to_user_ok]
    · have hv2 : req.validate = false := by simpa using hv
      simp [create_user, hv2]
  · intro e
    by_cases hv : req.validate = true
    · cases hc : User.create_with_executor db now req.email req.display_name req.password with
      | error e2 => simp [create_user, hv, hc]
      | ok p =>
        obtain ⟨usr, db1⟩ := p
        simp [create_user, hv, hc, VerificationToken.create_with_executor, send_to_user_ok]
    · have hv2 : req.validate = false := by simpa using hv
      simp [create_user, hv2]

/-- C4 witness: concrete creation against the fixture store. -/
theorem C4_witness :
    ∃ u db', create_user dbW 10 "newtok" true reqW = (.ok u, db') ∧
      u.email = "c@example.com" ∧ u.email_verified = false ∧
      ((db'.tokens.filter (fun t => t.user_id = u.id)).length = 1 ∧
       ∀ t ∈ db'.tokens, t.user_id = u.id → t.redeemableAt 10 = true) :=
  (C4_create_user_success_and_atomic dbW 10 "newtok" true reqW).1 (by decide) (by decide)
    (by decide)

/-! ### Monotonicity machinery for C5 -/

theorem userMono_refl (u : User) : userMono u u := ⟨rfl, fun h => h⟩

theorem tokenMono_refl (t : VerificationToken) : tokenMono t t := ⟨rfl, fun _ h => h⟩

theorem forall2_take_same {α : Type} (R : α → α → Prop) (l : List α) (hR : ∀ x ∈ l, R x x) :
    List.Forall₂ R l (l.take l.length) := by
  rw [List.take_length]
  exact List.forall₂_same.mpr hR

theorem forall2_take_append {α : Type} (R : α → α → Prop) (l l2 : List α)
    (hR : ∀ x ∈ l, R x x) : List.Forall₂ R l ((l ++ l2).take l.length) := by
  rw [List.take_left]
  exact List.forall₂_same.mpr hR

theorem forall2_take_map {α : Type} (R : α → α → Prop) (l : List α) (f : α → α)
    (hR : ∀ x ∈ l, R x (f x)) : List.Forall₂ R l ((l.map f).take l.length) := by
  have hlen : (l.map f).take l.length = l.map f := by
    rw [← List.length_map l f, List.take_length]
  rw [hlen]
  exact List.forall₂_map_right_iff.mpr (List.forall₂_same.mpr hR)

theorem dbMono_refl (db : DB) : DBMono db db :=
  ⟨forall2_take_same _ _ (fun u _ => userMono_refl u),
   forall2_take_same _ _ (fun t _ => tokenMono_refl t)⟩

/-- The three caller-visible shapes of the user table after an operation, and
the three shapes of the token table (the `setUsed` map is only applied on a
path where every row carrying the marked id was still unused). -/
theorem dbMono_of_shapes (db db' : DB)
    (hu : db'.users = db.users ∨ (∃ x, db'.users = db.users ++ [x]) ∨
          ∃ uid, db'.users = db.users.map (setVerified uid))
    (ht : db'.tokens = db.tokens ∨ (∃ x, db'.tokens = db.tokens ++ [x]) ∨
          ∃ tid mnow, db'.tokens = db.tokens.map (setUsed tid mnow) ∧
            ∀ t ∈ db.tokens, t.id = tid → t.used_at = none) :
    DBMono db db' := by
  constructor
  · rcases hu with h | ⟨x, h⟩ | ⟨uid, h⟩ <;> rw [h]
    · exact forall2_take_same _ _ (fun u _ => userMono_refl u)
    · exact forall2_take_append _ _ _ (fun u _ => userMono_refl u)
    · refine forall2_take_map _ _ _ (fun u _ => ?_)
      unfold userMono setVerified
      by_cases hid : u.id = uid <;> simp [hid]
  · rcases ht with h | ⟨x, h⟩ | ⟨tid, mnow, h, hnone⟩ <;> rw [h]
    · exact forall2_take_same _ _ (fun t _ => tokenMono_refl t)
    · exact forall2_take_append _ _ _ (fun t _ => tokenMono_refl t)
    · refine forall2_take_map _ _ _ (fun t hmem => ?_)
      unfold tokenMono setUsed
      by_cases hid : t.id = tid
      · simp only [hid, if_pos rfl]
        exact ⟨rfl, fun ts hts => by rw [hnone t hmem hid] at hts; cases hts⟩
      · simp [hid]

/-! ### Shape inversions for the store primitives -/

theorem create_user_row_shape {db : DB} {now : Int} {e d p : String} {usr : User} {db' : DB}
    (h : User.create_with_executor db now e d p = .ok (usr, db')) :
    db'.users = db.users ++ [usr] ∧ db'.tokens = db.tokens := by
  unfold User.create_with_executor at h
  split at h
  · cases h
  · simp only [Except.ok.injEq, Prod.mk.injEq] at h
    obtain ⟨h1, h2⟩ := h
    subst h2
    simp [← h1]

theorem create_token_row_shape {db : DB} {now : Int} {s cat : String} {uid : Int}
    {t : VerificationToken} {db' : DB}
    (h : VerificationToken.create_with_executor db now s uid cat = .ok (t, db')) :
    db'.users = db.users ∧ db'.tokens = db.tokens ++ [t] := by
  unfold VerificationToken.create_with_executor at h
  simp only [Except.ok.injEq, Prod.mk.injEq] at h
  obtain ⟨h1, h2⟩ := h
  subst h2
  simp [← h1]

theorem verify_exec_shape {db : DB} {uid : Int} {u : User} {db' : DB}
    (h : User.verify_email_with_executor db uid = .ok (u, db')) :
    db'.users = db.users.map (setVerified uid) ∧ db'.tokens = db.tokens := by
  unfold User.verify_email_with_executor at h
  split at h
  · cases h
  · simp only [Except.ok.injEq, Prod.mk.injEq] at h
    obtain ⟨_, h2⟩ := h
    subst h2
    exact ⟨rfl, rfl⟩

theorem mark_used_shape {db : DB} {now tid : Int} {t : VerificationToken} {db' : DB}
    (h : VerificationToken.mark_as_used_with_executor db now tid = .ok (t, db')) :
    db'.users = db.users ∧ db'.tokens = db.tokens.map (setUsed tid now) := by
  unfold VerificationToken.mark_as_used_with_executor at h
  split at h
  · cases h
  · simp only [Except.ok.injEq, Prod.mk.injEq] at h
    obtain ⟨_, h2⟩ := h
    subst h2
    exact ⟨rfl, rfl⟩

/-! ### Per-operation monotonicity -/

theorem create_user_mono (db : DB) (now : Int) (tokStr : String) (emailOk : Bool)
    (req : CreateUserRequest) : DBMono db (create_user db now tokStr emailOk req).2 := by
  by_cases hv : req.validate = true
  · cases hc : User.create_with_executor db now req.email req.display_name req.password with
    | error e =>
      rw [show (create_user db now tokStr emailOk req).2 = db by simp [create_user, hv, hc]]
      exact dbMono_refl db
    | ok p =>
      obtain ⟨usr, db1⟩ := p
      cases hc2 : VerificationToken.create_with_executor db1 now tokStr usr.id
          "email_verification" with
      | error e =>
        rw [show (create_user db now tokStr emailOk req).2 = db by
          simp [create_user, hv, hc, hc2]]
        exact dbMono_refl db
      | ok p2 =>
        obtain ⟨t1, db2⟩ := p2
        have hs1 := create_user_row_shape hc
        have hs2 := create_token_row_shape hc2
        rw [show (create_user db now tokStr emailOk req).2 = db2 by
          simp [create_user, hv, hc, hc2, send_to_user_ok]]
        refine dbMono_of_shapes db db2 (Or.inr (Or.inl ⟨usr, ?_⟩)) (Or.inr (Or.inl ⟨t1, ?_⟩))
        · rw [hs2.1, hs1.1]
        · rw [hs2.2, hs1.2]
  · have hv2 : req.validate = false := by simpa using hv
    rw [show (create_user db now tokStr emailOk req).2 = db by simp [create_user, hv2]]
    exact dbMono_refl db

theorem send_verification_email_mono (db : DB) (now : Int) (tokStr : String) (emailOk : Bool)
    (uid : Int) : DBMono db (send_verification_email db now tokStr emailOk uid).2 := by
  cases hc : VerificationToken.create_with_executor db now tokStr uid "email_verification" with
  | error e =>
    rw [show (send_verification_email db now tokStr emailOk uid).2 = db by
      simp [send_verification_email, create_verification_token, hc]]
    exact dbMono_refl db
  | ok p =>
    obtain ⟨t1, db1⟩ := p
    have hs := create_token_row_shape hc
    have h2 : (send_verification_email db now tokStr emailOk uid).2 = db1 := by
      cases hf : User.find_by_id db1 uid with
      | none => simp [send_verification_email, create_verification_token, hc, hf]
      | some u => simp [send_verification_email, create_verification_token, hc, hf,
          send_to_user_ok]
    rw [h2]
    exact dbMono_of_shapes db db1 (Or.inl hs.1) (Or.inr (Or.inl ⟨t1, hs.2⟩))

theorem verify_email_mono (env : Env) (db : DB) (now : Int) (tokenStr : String)
    (htok : ∀ t1 ∈ db.tokens, ∀ t2 ∈ db.tokens, t1.id = t2.id → t1 = t2) :
    DBMono db (verify_email env db now tokenStr).2 := by
  cases hf : VerificationToken.find_by_token_for_update db tokenStr with
  | none =>
    rw [show (verify_email env db now tokenStr).2 = db by simp [verify_email, hf]]
    exact dbMono_refl db
  | some vt =>
    by_cases hexp : vt.expires_at < now
    · rw [show (verify_email env db now tokenStr).2 = db by simp [verify_email, hf, hexp]]
      exact dbMono_refl db
    · by_cases hus : vt.used_at.isSome = true
      · rw [show (verify_email env db now tokenStr).2 = db by simp [verify_email, hf, hexp, hus]]
        exact dbMono_refl db
      · cases he : User.verify_email_with_executor db vt.user_id with
        | error e =>
          rw [show (verify_email env db now tokenStr).2 = db by
            simp [verify_email, hf, hexp, hus, he]]
          exact dbMono_refl db
        | ok p =>
          obtain ⟨u1, db1⟩ := p
          cases hm : VerificationToken.mark_as_used_with_executor db1 now vt.id with
          | error e =>
            rw [show (verify_email env db now tokenStr).2 = db by
              simp [verify_email, hf, hexp, hus, he, hm]]
            exact dbMono_refl db
          | ok p2 =>
            obtain ⟨t1, db2⟩ := p2
            have hs1 := verify_exec_shape he
            have hs2 := mark_used_shape hm
            have h2 : (verify_email env db now tokenStr).2 = db2 := by
              cases henc : encode_jwt env ⟨u1.email, usizeOfTimestamp (now + HOURS24), u1.id⟩ with
              | error e => simp [verify_email, hf, hexp, hus, he, hm, henc]
              | ok tok => simp [verify_email, hf, hexp, hus, he, hm, henc]
            rw [h2]
            have hmem : vt ∈ db.tokens := by
              have hfF := hf
              unfold VerificationToken.find_by_token_for_update
                VerificationToken.find_by_token at hfF
              exact List.mem_of_find?_eq_some hfF
            refine dbMono_of_shapes db db2 (Or.inr (Or.inr ⟨vt.user_id, ?_⟩))
              (Or.inr (Or.inr ⟨vt.id, now, ?_, ?_⟩))
            · rw [hs2.1, hs1.1]
            · rw [hs2.2, hs1.2]
            · intro t htmem hid
              have heq : t = vt := htok t htmem vt hmem hid
              subst heq
              simpa using hus

theorem send_verification_email_by_email_mono (db : DB) (now : Int) (tokStr : String)
    (emailOk : Bool) (email : String) :
    DBMono db (send_verification_email_by_email db now tokStr emailOk email).2 := by
  cases hf : User.find_by_email db email with
  | none =>
    rw [show (send_verification_email_by_email db now tokStr emailOk email).2 = db by
      simp [send_verification_email_by_email, hf]]
    exact dbMono_refl db
  | some u =>
    by_cases hv : u.email_verified = true
    · rw [show (send_verification_email_by_email db now tokStr emailOk email).2 = db by
        simp [send_verification_email_by_email, hf, hv]]
      exact dbMono_refl db
    · have hv2 : u.email_verified = false := by simpa using hv
      rw [show (send_verification_email_by_email db now tokStr emailOk email).2 =
          (send_verification_email db now tokStr emailOk u.id).2 by
        simp [send_verification_email_by_email, hf, hv2]]
      exact send_verification_email_mono db now tokStr emailOk u.id

/-- C5: no identity-service operation ever clears an account's
`email_verified` flag or a token's `used_at`: across every operation, every
pre-existing row survives in place with `email_verified` monotone false→true
and `used_at` preserved once set.  The hypothesis is the primary-key
integrity of the token table (distinct rows have distinct ids), which
Postgres guarantees in every reachable state. -/
theorem C5_service_state_monotone (env : Env) (op : Op) (db : DB)
    (htok : ∀ t1 ∈ db.tokens, ∀ t2 ∈ db.tokens, t1.id = t2.id → t1 = t2) :
    DBMono db (Op.apply env db op) := by
  cases op with
  | opCreateUser now tokStr emailOk req => exact create_user_mono db now tokStr emailOk req
  | opLogin now req => exact dbMono_refl db
  | opSendVerificationEmail now tokStr emailOk uid =>
    exact send_verification_email_mono db now tokStr emailOk uid
  | opSendVerificationEmailByEmail now tokStr emailOk email =>
    exact send_verification_email_by_email_mono db now tokStr emailOk email
  | opVerifyEmail now tokenStr => exact verify_email_mono env db now tokenStr htok
  | opGetUserById uid => exact dbMono_refl db

/-- C5 witness: redeeming the live fixture token keeps the already-verified
account verified and the already-used token used. -/
theorem C5_witness :
    DBMono dbW (Op.apply envA dbW (Op.opVerifyEmail 10 "tokW")) :=
  C5_service_state_monotone envA (Op.opVerifyEmail 10 "tokW") dbW (by decide)

/-- C6: under every scheduler interleaving, two concurrent `verify_email`
transactions on the same live token — serialized by the exclusive row lock of
the redemption lookup — never both succeed, and when both have finished
exactly one succeeded while the other failed with `TokenAlreadyUsed`. -/
theorem C6_concurrent_redemption_single_success (db : DB) (now : Int) (tokenStr : String)
    (vt : VerificationToken) (sched : List Bool)
    (hfind : VerificationToken.find_by_token_for_update db tokenStr = some vt)
    (hexp : ¬ (vt.expires_at < now))
    (hused : vt.used_at = none)
    (husr : (User.find_by_id db vt.user_id).isSome = true) :
    ((runSched now tokenStr sched ⟨db, none, .ready, .ready⟩).phA = .finished (.ok ()) →
      (runSched now tokenStr sched ⟨db, none, .ready, .ready⟩).phB ≠ .finished (.ok ())) ∧
    ((∃ ra, (runSched now tokenStr sched ⟨db, none, .ready, .ready⟩).phA = .finished ra) →
     (∃ rb, (runSched now tokenStr sched ⟨db, none, .ready, .ready⟩).phB = .finished rb) →
      ((runSched now tokenStr sched ⟨db, none, .ready, .ready⟩).phA = .finished (.ok ()) ∧
       (runSched now tokenStr sched ⟨db, none, .ready, .ready⟩).phB =
         .finished (.error (.TokenAlreadyUsed "Verification token has already been used"))) ∨
      ((runSched now tokenStr sched ⟨db, none, .ready, .ready⟩).phB = .finished (.ok ()) ∧
       (runSched now tokenStr sched ⟨db, none, .ready, .ready⟩).phA =
         .finished (.error (.TokenAlreadyUsed "Verification token has already been used")))) := by
  obtain ⟨u, hu⟩ := Option.isSome_iff_exists.mp husr
  have huF := hu
  unfold User.find_by_id at huF
  have hfindF := hfind
  unfold VerificationToken.find_by_token_for_update VerificationToken.find_by_token at hfindF
  have hexec : User.verify_email_with_executor db vt.user_id =
      .ok ({ u with email_verified := true },
        { db with users := db.users.map (setVerified vt.user_id) }) := by
    unfold User.verify_email_with_executor
    rw [huF]
  obtain ⟨t0, ht0⟩ : ∃ t0, db.tokens.find? (fun t => t.id = vt.id) = some t0 := by
    cases h : db.tokens.find? (fun t => t.id = vt.id) with
    | some t0 => exact ⟨t0, rfl⟩
    | none =>
      have := List.find?_eq_none.mp h vt (List.mem_of_find?_eq_some hfindF)
      simp at this
  have hmark : VerificationToken.mark_as_used_with_executor
      { db with users := db.users.map (setVerified vt.user_id) } now vt.id =
      .ok ({ t0 with used_at := some now },
        { db with users := db.users.map (setVerified vt.user_id),
                  tokens := db.tokens.map (setUsed vt.id now) }) := by
    unfold VerificationToken.mark_as_used_with_executor
    rw [show ({ db with users := db.users.map (setVerified vt.user_id) } : DB).tokens
        = db.tokens from rfl, ht0]
  have hfind2 : VerificationToken.find_by_token_for_update
      { db with users := db.users.map (setVerified vt.user_id),
                tokens := db.tokens.map (setUsed vt.id now) } tokenStr =
      some { vt with used_at := some now } :=
    find_by_token_after_setUsed db tokenStr now vt hfind
  have hstep : ∀ (s : Bool) c,
      ConcInv db { db with users := db.users.map (setVerified vt.user_id) }
        { db with users := db.users.map (setVerified vt.user_id),
                  tokens := db.tokens.map (setUsed vt.id now) } vt c →
      ConcInv db { db with users := db.users.map (setVerified vt.user_id) }
        { db with users := db.users.map (setVerified vt.user_id),
                  tokens := db.tokens.map (setUsed vt.id now) } vt
        (stepThread now tokenStr s c) := by
    intro s c hc
    rcases hc with rfl | rfl | rfl | rfl | rfl | rfl | rfl | rfl | rfl <;> cases s <;>
      simp [ConcInv, stepThread, Config.ph, Config.withPh, hfind, hexp, hused, hexec, hmark,
        hfind2]
  have hrun : ∀ (l : List Bool) c,
      ConcInv db { db with users := db.users.map (setVerified vt.user_id) }
        { db with users := db.users.map (setVerified vt.user_id),
                  tokens := db.tokens.map (setUsed vt.id now) } vt c →
      ConcInv db { db with users := db.users.map (setVerified vt.user_id) }
        { db with users := db.users.map (setVerified vt.user_id),
                  tokens := db.tokens.map (setUsed vt.id now) } vt
        (runSched now tokenStr l c) := by
    intro l
    induction l with
    | nil => intro c h; exact h
    | cons t ts ih => intro c h; exact ih _ (hstep t c h)
  have hfin := hrun sched ⟨db, none, .ready, .ready⟩ (Or.inl rfl)
  rcases hfin with h | h | h | h | h | h | h | h | h <;> rw [h] <;>
    constructor <;> simp

/-- C6 witness: a concrete schedule — thread A acquires the lock and commits
while thread B is blocked, then B re-reads and fails with
`TokenAlreadyUsed`. -/
theorem C6_witness :
    ((runSched 10 "tokW" [true, false, true, true, false] ⟨dbW, none, .ready, .ready⟩).phA =
        .finished (.ok ()) →
      (runSched 10 "tokW" [true, false, true, true, false] ⟨dbW, none, .ready, .ready⟩).phB ≠
        .finished (.ok ())) ∧
    ((∃ ra, (runSched 10 "tokW" [true, false, true, true, false]
        ⟨dbW, none, .ready, .ready⟩).phA = .finished ra) →
     (∃ rb, (runSched 10 "tokW" [true, false, true, true, false]
        ⟨dbW, none, .ready, .ready⟩).phB = .finished rb) →
      (((runSched 10 "tokW" [true, false, true, true, false]
          ⟨dbW, none, .ready, .ready⟩).phA = .finished (.ok ()) ∧
        (runSched 10 "tokW" [true, false, true, true, false]
          ⟨dbW, none, .ready, .ready⟩).phB =
          .finished (.error (.TokenAlreadyUsed "Verification token has already been used"))) ∨
       ((runSched 10 "tokW" [true, false, true, true, false]
          ⟨dbW, none, .ready, .ready⟩).phB = .finished (.ok ()) ∧
        (runSched 10 "tokW" [true, false, true, true, false]
          ⟨dbW, none, .ready, .ready⟩).phA =
          .finished (.error (.TokenAlreadyUsed "Verification token has already been used"))))) :=
  C6_concurrent_redemption_single_success dbW 10 "tokW" tokenW
    [true, false, true, true, false] rfl (by decide) rfl rfl

end Koko
